import Mathlib

/-!
Shallow embedding of the `hocon` configuration parser (package `hocon`,
files `parser.go` and `errors.go`) and proofs about it.

Modelling conventions:

* The low-level lexer (`text/scanner`) is an external collaborator of the
  parser (spec §1).  A document is therefore embedded as the list of tokens
  the Go scanner produces for it, each token carrying its lexical kind
  (`scanner.Int`, `scanner.Float`, `scanner.String`, `scanner.Ident`, or a
  plain character token), its text, and whether the next token follows it
  with no intervening whitespace (this is what `scanner.Peek()` can observe:
  `Peek` returns the raw character right after the current token).  Token
  lists used in the theorems state, in a comment, the exact source text they
  are lexed from.  `Peek`'s end-of-input test is modelled as "no tokens
  remain"; inputs whose trailing whitespace would make the two differ are
  outside the token-level embedding.
* The Go functions mutate a shared `scanner` cursor; the embedding threads
  an explicit `ScanState` value instead.  Functions that can fail return
  `Except ParseErr`; a Go `return nil, err` is `.error e`.
* Error values: spec §7 puts only the taxonomy of error conditions in
  scope, not the message strings, so `ParseErr` is a structured enumeration
  of the error sites of `parser.go`/`errors.go`; line/column data lives in
  the external scanner and is not modelled.
* The recursive-descent functions of `parser.go` recurse through a shared
  cursor and can even diverge (the loop of `extractSubstitution` at line 415
  re-evaluates a stale loop variable).  The embedding gives every parsing
  function an explicit fuel argument, decremented at each recursive call;
  exhausted fuel yields the distinguished error `ParseErr.outOfFuel`, which
  no Go code path produces.  All concrete evaluations use ample fuel.
* `os.Open` for `include` directives is abstracted as an environment
  `Env : String → Option (List Token)` mapping a resource path to the token
  list of its contents; `none` models `os.ErrNotExist`.  Other I/O failures
  (`could not parse resource` for non-not-exist errors, close failures) are
  not modelled.
* The value tree (`Config`, `ConfigObject`, `ConfigArray`, scalar types,
  `Substitution`) lives in a repository file that is not available
  (`config.go`); only its usage sites in `parser.go` and the spec describe
  it.  Definitions taken from the spec rather than from source are marked
  `Modelled from the spec:` in their doc comment.  Per spec §3/§4.4 an
  Object iterates in insertion order (a Go `map` iterates in unspecified
  order; the spec fixes insertion order), so objects are embedded as
  insertion-ordered association lists whose key-assignment updates in place.
* `float32` values are kept as their raw token text; no claim concerns
  floating-point arithmetic.
-/

namespace Hocon

/-- Value tree of the parser (spec §3; `config.go` is not available, the
variant list is the one the spec gives and `parser.go` constructs:
Object, Array, String, Int, Float32, Boolean, Null, Substitution). -/
inductive ConfigValue where
  | object (items : List (String × ConfigValue))
  | array (values : List ConfigValue)
  | str (value : String)
  | int (value : Int)
  | float (raw : String)
  | boolean (value : Bool)
  | null
  | substitution (path : String) (optional : Bool)
deriving Repr

/-- Items of a `ConfigObject`: an insertion-ordered association list
standing for the Go `map[string]ConfigValue` (see the header note on
iteration order). -/
abbrev Items := List (String × ConfigValue)

/-- Lexical kind of a token, mirroring the rune `scanner.Scan` returns:
the special classes `scanner.Int`, `scanner.Float`, `scanner.String`,
`scanner.Ident`, or (`other`) the character itself for one-character
tokens. -/
inductive TokKind where
  | int
  | float
  | str
  | ident
  | other
deriving Repr, DecidableEq

/-- One token of the external lexer: kind, text, and whether the following
token is adjacent in the raw input (no whitespace in between), which is
what `scanner.Peek()` can distinguish. -/
structure Token where
  kind : TokKind
  text : String
  adjNext : Bool
deriving Repr

/-- State of the shared `scanner.Scanner` cursor: the current token
(`none` before the first `Scan` and at end of input, where `TokenText()`
is `""`) and the tokens not yet scanned. -/
structure ScanState where
  current : Option Token
  rest : List Token
deriving Repr

/-- Decimal digits to a number, the loop of `strconv.Atoi` on an unsigned
token: any non-digit character fails.  (`scanner.Int` tokens may also be
hexadecimal, octal or binary literals, on which `Atoi` fails.) -/
def charsToNat : Nat → List Char → Option Nat
  | acc, [] => some acc
  | acc, c :: cs => if c.isDigit then charsToNat (acc * 10 + (c.toNat - 48)) cs else none

/-- Embedding of `strconv.Atoi` on the (never empty, unsigned) integer
tokens the scanner produces. -/
def atoi (s : String) : Option Int :=
  (charsToNat 0 s.toList).map Int.ofNat

/-- Embedding of `strings.ReplaceAll(token, quote, empty-string)`
(`parser.go` line 372): remove every double-quote character. -/
def removeQuoteChars (s : String) : String :=
  String.mk (s.toList.filter (fun c => c != '"'))

/-- Split on `.` separators, accumulator form. -/
def splitOnDotAux : List Char → List Char → List String
  | [], acc => [String.mk acc.reverse]
  | c :: rest, acc =>
    if c == '.' then String.mk acc.reverse :: splitOnDotAux rest []
    else splitOnDotAux rest (c :: acc)

/-- Split a dotted path into its segments (`strings`-style split on `.`,
used by the spec-modelled `find`). -/
def splitOnDot (s : String) : List String :=
  splitOnDotAux s.toList []

/-- First character of a string, `' '` if empty (total form of
`String.front` for `peek`). -/
def frontChar (s : String) : Char :=
  s.toList.headD ' '

/-- Text of the current token; `""` at end of input (`scanner.TokenText`). -/
def tokenText (s : ScanState) : String :=
  match s.current with
  | some t => t.text
  | none => ""

/-- Advance the cursor by one token (`scanner.Scan`); at end of input the
current token becomes `none` (Go: `Scan` returns `scanner.EOF` and
`TokenText()` is `""`). -/
def scan (s : ScanState) : ScanState :=
  match s.rest with
  | [] => ⟨none, []⟩
  | t :: ts => ⟨some t, ts⟩

/-- Kind of the current token, i.e. the rune the most recent `Scan`
returned; `none` stands for `scanner.EOF`. -/
def curKind (s : ScanState) : Option TokKind :=
  s.current.map Token.kind

/-- Character `Peek` yields when the next token is `t`: its first character
if adjacent to the current token, else the intervening whitespace
(represented as `' '`). -/
def peekChar (cur : Option Token) (t : Token) : Char :=
  match cur with
  | some c => if c.adjNext then frontChar t.text else ' '
  | none => frontChar t.text

/-- Next raw character after the current token (`scanner.Peek`): `none` is
`scanner.EOF`. -/
def peek (s : ScanState) : Option Char :=
  match s.rest with
  | [] => none
  | t :: _ => some (peekChar s.current t)

/-- Error taxonomy of the parse pipeline (`errors.go` and the literal
errors of `parser.go`; spec §7).  Message strings and line/column data are
out of scope (spec §1, §7), so each condition is a constructor carrying
the data the Go error interpolates. -/
inductive ParseErr where
  | invalidKey (key : String)
  | leadingPeriod
  | trailingPeriod
  | adjacentPeriods
  | invalidConfigObject (msg : String)
  | invalidConfigArray (msg : String)
  | invalidSubstitution (msg : String)
  | unknownConfigValue (token : String)
  | plusEqualsTypeError (key : String)
  | unresolvedSubstitution (path : String)
  | invalidIncludeValue (msg : String)
  | couldNotParseResource (path : String)
  | includedArrayRoot
  | atoiError (token : String)
  | outOfFuel
deriving Repr, DecidableEq

/-- Forbidden key characters (`parser.go` lines 28-32): the map
`forbiddenCharacters`, queried with a whole token's text. -/
def forbiddenCharacters (s : String) : Bool :=
  s == "$" || s == "\"" || s == "\x7b" || s == "\x7d" || s == "[" || s == "]" ||
  s == ":" || s == "=" || s == "," || s == "+" || s == "#" || s == "`" ||
  s == "^" || s == "?" || s == "!" || s == "@" || s == "*" || s == "&" ||
  s == "\\" || s == "(" || s == ")"

/-- Boolean literal test (`parser.go` lines 447-449). -/
def isBooleanString (token : String) : Bool :=
  token == "true" || token == "yes" || token == "on" ||
  token == "false" || token == "no" || token == "off"

/-- Boolean value of a boolean literal.  Modelled from the spec:
`NewConfigBooleanFromString` is in the unavailable `config.go`; spec §4.1
maps `true/yes/on` to true and `false/no/off` to false. -/
def configBooleanFromString (token : String) : Bool :=
  token == "true" || token == "yes" || token == "on"

/-- Substitution start test (`parser.go` lines 451-453): a `$` token whose
next raw character is `{`. -/
def isSubstitution (token : String) (peekedToken : Option Char) : Bool :=
  token == "$" && peekedToken == some '{'

/-- Separator test (`parser.go` lines 455-457): `=`, `:`, or a `+` token
whose next raw character is `=`. -/
def isSeparator (token : String) (peekedToken : Option Char) : Bool :=
  token == "=" || token == ":" || (token == "+" && peekedToken == some '=')

/-- Read of `items[key]` on the association-list embedding of the Go map. -/
def lookupKey (items : Items) (key : String) : Option ConfigValue :=
  (items.find? (fun p => p.1 == key)).map Prod.snd

/-- Write of `items[key] = v` on the association-list embedding: update in
place if the key exists, else append (insertion order). -/
def putKey : Items → String → ConfigValue → Items
  | [], key, v => [(key, v)]
  | (k, w) :: rest, key, v =>
    if k == key then (k, v) :: rest else (k, w) :: putKey rest key v

/-- Deep merge of an incoming object's items into existing items
(`mergeConfigObjects`, `parser.go` lines 219-229): per incoming key, if
both sides hold objects merge recursively in place, otherwise the incoming
value replaces the existing one.  The fuel argument only bounds the
nesting depth (the Go recursion is bounded by the tree height); exhausted
fuel leaves the remaining incoming keys unmerged and is never reached in
any theorem below. -/
def mergeConfigObjects : Nat → Items → Items → Items
  | _, existingItems, [] => existingItems
  | 0, existingItems, _ => existingItems
  | fuel+1, existingItems, (key, v) :: rest =>
    let merged :=
      match lookupKey existingItems key, v with
      | some (.object eo), .object io =>
        putKey existingItems key (.object (mergeConfigObjects fuel eo io))
      | _, _ => putKey existingItems key v
    mergeConfigObjects fuel merged rest
termination_by structural a => a

/-- Path lookup by segments.  Modelled from the spec: `ConfigObject.find`
is in the unavailable `config.go`; spec §4.4 says a substitution's dotted
path is looked up "by walking the path segments through nested Objects". -/
def findSegments : Items → List String → Option ConfigValue
  | _, [] => none
  | items, [seg] => lookupKey items seg
  | items, seg :: rest =>
    match lookupKey items seg with
    | some (.object o) => findSegments o rest
    | _ => none

/-- Dotted-path lookup against the root object (`root.find(path)` of
`parser.go` line 114).  Modelled from the spec: see `findSegments`. -/
def find (items : Items) (path : String) : Option ConfigValue :=
  findSegments items (splitOnDot path)

/-- Position of a node inside the value tree: the chain of object keys and
array indices leading to it.  The Go code needs no such paths because it
mutates containers in place; the pure embedding uses them to perform the
same write (`v.items[key] = foundValue` / `v.values[i] = foundValue`). -/
inductive Seg where
  | key (k : String)
  | idx (i : Nat)

mutual

/-- Replace the node at the given path of a value by `v` (the embedding of
the in-place writes done by the `resolveFunc` callbacks of
`resolveSubstitutions`, `parser.go` lines 93 and 100). -/
def setIn : ConfigValue → List Seg → ConfigValue → ConfigValue
  | _, [], v => v
  | .object items, .key k :: rest, v => .object (setInItems items k rest v)
  | .array vs, .idx i :: rest, v => .array (setInElems vs i rest v)
  | w, _ :: _, _ => w
termination_by structural p => p

/-- Helper of `setIn` for object items. -/
def setInItems : Items → String → List Seg → ConfigValue → Items
  | [], _, _, _ => []
  | (k', w) :: t, k, rest, v =>
    if k' == k then (k', setIn w rest v) :: t else (k', w) :: setInItems t k rest v
termination_by structural a => a

/-- Helper of `setIn` for array elements. -/
def setInElems : List ConfigValue → Nat → List Seg → ConfigValue → List ConfigValue
  | [], _, _, _ => []
  | w :: t, i, rest, v =>
    if i == 0 then setIn w rest v :: t else w :: setInElems t (i - 1) rest v
termination_by structural a => a

end

/-- Write `v` at path `path` of the root items (the root is always an
object when `resolveSubstitutions` runs from `parse`). -/
def setAt (root : Items) (path : List Seg) (v : ConfigValue) : Items :=
  match path with
  | .key k :: rest => setInItems root k rest v
  | _ => root

mutual

/-- Object case of `resolveSubstitutions` (`parser.go` lines 98-104):
process each field value in turn.  `shape` is the subtree the Go `range`
iterates (its nodes are untouched until visited), `path` its position in
the root, and `root` the current whole tree, which the Go code both reads
(`root.find`) and mutates in place; the embedding threads it. -/
def resolveItems (shape : Items) (path : List Seg) (root : Items) :
    Except ParseErr Items :=
  match shape with
  | [] => .ok root
  | (k, v) :: rest =>
    match processSubstitution v (path ++ [.key k]) root with
    | .ok root' => resolveItems rest path root'
    | .error e => .error e
termination_by structural shape

/-- Array case of `resolveSubstitutions` (`parser.go` lines 91-97):
process each element in turn. -/
def resolveElems (shape : List ConfigValue) (i : Nat) (path : List Seg) (root : Items) :
    Except ParseErr Items :=
  match shape with
  | [] => .ok root
  | v :: rest =>
    match processSubstitution v (path ++ [.idx i]) root with
    | .ok root' => resolveElems rest (i + 1) path root'
    | .error e => .error e
termination_by structural shape

/-- Embedding of `processSubstitution` (`parser.go` lines 111-123), acting
on the child value at `path`: a Substitution is looked up in the current
root and, if found, replaced in its parent container (`resolveFunc`); a
not-found optional Substitution is left as-is; a not-found required one
aborts with the unresolved-substitution error; containers are recursed
into (`resolveSubstitutions`); scalars are left alone.  Go's found value
is shared by pointer between its original site and the substitution site;
the embedding copies it (Substitution nodes are never mutated, so the two
are observably equal for every input considered below). -/
def processSubstitution (v : ConfigValue) (path : List Seg) (root : Items) :
    Except ParseErr Items :=
  match v with
  | .substitution p _opt =>
    match find root p with
    | some foundValue => .ok (setAt root path foundValue)
    | none =>
      if _opt then .ok root else .error (.unresolvedSubstitution p)
  | .object items => resolveItems items path root
  | .array vs => resolveElems vs 0 path root
  | _ => .ok root
termination_by structural v

end

/-- Top-level entry of the resolution pass (`resolveSubstitutions(configObject)`
at `parser.go` line 75, with the one-argument call shape of lines 82-88:
the traversed value is the root object itself).  The `default:` error of
`resolveSubstitutions` ("invalid type for substitution") is unreachable
from `parse`: the traversed value is always the root object, and recursion
only enters objects and arrays. -/
def resolveSubstitutions (root : Items) : Except ParseErr Items :=
  resolveItems root [] root

/-- Result of `validateIncludeValue` (`IncludeToken`, `parser.go` lines
459-462): quoted path stripped of its quotes, and the `required` flag. -/
structure IncludeToken where
  path : String
  required : Bool

/-- Embedding of `validateIncludeValue` (`parser.go` lines 253-291):
recognise `[required(] [file(|classpath(] "path" [)] [)]` after the
`include` keyword and return path and required flag; malformed shapes are
invalid-include errors.  Non-recursive, so no fuel. -/
def validateIncludeValue (s : ScanState) : Except ParseErr (IncludeToken × ScanState) :=
  let req := tokenText s == "required"
  let afterReq : Except ParseErr (String × ScanState) :=
    if req then
      let s1 := scan s
      if tokenText s1 != "(" then .error (.invalidIncludeValue "missing opening parenthesis")
      else
        let s2 := scan s1
        .ok (tokenText s2, s2)
    else .ok (tokenText s, s)
  match afterReq with
  | .error e => .error e
  | .ok (token, s) =>
    let afterWrap : Except ParseErr (String × ScanState) :=
      if token == "file" || token == "classpath" then
        let s1 := scan s
        if tokenText s1 != "(" then .error (.invalidIncludeValue "missing opening parenthesis")
        else
          let s2 := scan s1
          let path := tokenText s2
          let s3 := scan s2
          if tokenText s3 != ")" then .error (.invalidIncludeValue "missing closing parenthesis")
          else .ok (path, s3)
      else .ok (token, s)
    match afterWrap with
    | .error e => .error e
    | .ok (token, s) =>
      let afterReqClose : Except ParseErr ScanState :=
        if req then
          let s1 := scan s
          if tokenText s1 != ")" then .error (.invalidIncludeValue "missing closing parenthesis")
          else .ok s1
        else .ok s
      match afterReqClose with
      | .error e => .error e
      | .ok s =>
        if !(token.toList.headD ' ' == '"') || !(token.toList.getLast? == some '"') ||
            token.toList.length < 2 then
          .error (.invalidIncludeValue "expected quoted string")
        else .ok (⟨String.mk (token.toList.drop 1).dropLast, req⟩, s)

/-- Environment abstracting the filesystem for `include` directives: the
token list of the resource at a path, or `none` when opening it fails with
`os.ErrNotExist`. -/
abbrev Env := String → Option (List Token)

mutual

/-- Embedding of `extractConfigObject` entry (`parser.go` lines 125-137):
an opening brace marks the object unbalanced and is consumed; a directly
following closing brace yields the empty object; otherwise the extraction
loop runs. -/
def extractConfigObject (env : Env) : Nat → ScanState → Except ParseErr (Items × ScanState)
  | 0, _ => .error .outOfFuel
  | fuel+1, s =>
    if tokenText s == "\x7b" then
      let s1 := scan s
      if tokenText s1 == "\x7d" then .ok ([], scan s1)
      else objectLoop env fuel [] false s1
    else objectLoop env fuel [] true s
termination_by structural fuel => fuel

/-- Embedding of the token loop of `extractConfigObject` (`parser.go`
lines 138-216): while `Peek` is not EOF — handle an `include` directive;
read a key token (rejecting forbidden characters and a leading period);
read the following token; on `.` or `{` recursively extract a nested
object for the key (for `.`: rejecting adjacent periods and a period right
before a separator); on `=`/`:` extract a value, deep-merging object
values into an existing object under the key; on `+` adjacent to `=` run
the plus-equals assignment; skip one trailing comma; on a closing brace of
an unbalanced object stop, consuming the brace.  Falling out of the loop
with an unbalanced brace is the parenthesis error. -/
def objectLoop (env : Env) : Nat → Items → Bool → ScanState → Except ParseErr (Items × ScanState)
  | 0, _, _, _ => .error .outOfFuel
  | fuel+1, root, parenthesisBalanced, s =>
    match peek s with
    | none =>
      if parenthesisBalanced then .ok (root, s)
      else .error (.invalidConfigObject "parenthesis do not match")
    | some _ =>
      let included : Except ParseErr (Items × ScanState) :=
        if tokenText s == "include" then
          match parseIncludedResource env fuel (scan s) with
          | .error e => .error e
          | .ok (includedConfigObject, s1) =>
            .ok (mergeConfigObjects fuel root includedConfigObject, scan s1)
        else .ok (root, s)
      match included with
      | .error e => .error e
      | .ok (root, s) =>
        let key := tokenText s
        if forbiddenCharacters key then .error (.invalidKey key)
        else if key == "." then .error .leadingPeriod
        else
          let s1 := scan s
          let text := tokenText s1
          let dotted : Except ParseErr (Items × ScanState) :=
            if text == "." || text == "\x7b" then
              let skipped : Except ParseErr ScanState :=
                if text == "." then
                  let s2 := scan s1
                  if tokenText s2 == "." then .error .adjacentPeriods
                  else if isSeparator (tokenText s2) (peek s2) then .error .trailingPeriod
                  else .ok s2
                else .ok s1
              match skipped with
              | .error e => .error e
              | .ok s2 =>
                match extractConfigObject env fuel s2 with
                | .error e => .error e
                | .ok (configObject, s3) => .ok (putKey root key (.object configObject), s3)
            else .ok (root, s1)
          match dotted with
          | .error e => .error e
          | .ok (root, s4) =>
            let assigned : Except ParseErr (Items × ScanState) :=
              if text == "=" || text == ":" then
                let s5 := scan s4
                match extractConfigValue env fuel (curKind s5) s5 with
                | .error e => .error e
                | .ok (configValue, s6) =>
                  let merged :=
                    match configValue, lookupKey root key with
                    | .object io, some (.object eo) =>
                      ConfigValue.object (mergeConfigObjects fuel eo io)
                    | v, _ => v
                  .ok (putKey root key merged, s6)
              else if text == "+" then
                if peek s4 == some '=' then
                  let s5 := scan s4
                  let s6 := scan s5
                  parsePlusEqualsValue env fuel root key (curKind s6) s6
                else .ok (root, s4)
              else .ok (root, s4)
            match assigned with
            | .error e => .error e
            | .ok (root, s7) =>
              let s8 := if tokenText s7 == "," then scan s7 else s7
              if !parenthesisBalanced && tokenText s8 == "\x7d" then .ok (root, scan s8)
              else objectLoop env fuel root parenthesisBalanced s8
termination_by structural fuel => fuel

/-- Embedding of `parsePlusEqualsValue` (`parser.go` lines 231-251): if
the key is absent, extract the value into a fresh one-element array; if it
holds an array, extract the value and append it; otherwise fail with the
not-an-array type error (before any value is extracted). -/
def parsePlusEqualsValue (env : Env) :
    Nat → Items → String → Option TokKind → ScanState → Except ParseErr (Items × ScanState)
  | 0, _, _, _, _ => .error .outOfFuel
  | fuel+1, existingItems, key, currentRune, s =>
    match lookupKey existingItems key with
    | none =>
      match extractConfigValue env fuel currentRune s with
      | .error e => .error e
      | .ok (configValue, s1) => .ok (putKey existingItems key (.array [configValue]), s1)
    | some existing =>
      match existing with
      | .array vs =>
        match extractConfigValue env fuel currentRune s with
        | .error e => .error e
        | .ok (configValue, s1) =>
          .ok (putKey existingItems key (.array (vs ++ [configValue])), s1)
      | _ => .error (.plusEqualsTypeError key)
termination_by structural fuel => fuel

/-- Embedding of `parseIncludedResource` (`parser.go` lines 293-318):
validate the include directive, open the resource through the environment
(a missing resource is the empty object unless `required`, which fails),
reject an array-rooted resource, and extract its root object with a fresh
scanner.  The outer scanner is returned unchanged, as in Go (the caller
scans past the directive afterwards). -/
def parseIncludedResource (env : Env) : Nat → ScanState → Except ParseErr (Items × ScanState)
  | 0, _ => .error .outOfFuel
  | fuel+1, s =>
    match validateIncludeValue s with
    | .error e => .error e
    | .ok (includeToken, s1) =>
      match env includeToken.path with
      | none =>
        if !includeToken.required then .ok ([], s1)
        else .error (.couldNotParseResource includeToken.path)
      | some fileTokens =>
        let fs := scan ⟨none, fileTokens⟩
        if tokenText fs == "[" then .error .includedArrayRoot
        else
          match extractConfigObject env fuel fs with
          | .error e => .error e
          | .ok (obj, _) => .ok (obj, s1)
termination_by structural fuel => fuel

/-- Embedding of `extractConfigValue` (`parser.go` lines 353-394),
dispatching on the rune the latest `Scan` returned: integer and float
tokens become Int/Float32 scalars (the Int via `strconv.Atoi`, whose
only failure on scanner-produced tokens is range overflow, kept as
`atoiError`), string tokens become String scalars with every `"` removed
(`strings.ReplaceAll`), the `null` identifier becomes Null, boolean
identifiers become Boolean; otherwise `{` recurses into object
extraction, `[` into array extraction, `$` adjacent to `{` into
substitution extraction, and anything else is the unknown-config-value
error. -/
def extractConfigValue (env : Env) :
    Nat → Option TokKind → ScanState → Except ParseErr (ConfigValue × ScanState)
  | 0, _, _ => .error .outOfFuel
  | fuel+1, currentRune, s =>
    let token := tokenText s
    match currentRune with
    | some .int =>
      match atoi token with
      | some value => .ok (.int value, scan s)
      | none => .error (.atoiError token)
    | some .float => .ok (.float token, scan s)
    | some .str => .ok (.str (removeQuoteChars token), scan s)
    | some .ident =>
      if token == "null" then .ok (.null, scan s)
      else if isBooleanString token then .ok (.boolean (configBooleanFromString token), scan s)
      else .error (.unknownConfigValue token)
    | _ =>
      if token == "\x7b" then
        match extractConfigObject env fuel s with
        | .error e => .error e
        | .ok (obj, s1) => .ok (.object obj, s1)
      else if token == "[" then
        match extractConfigArray env fuel s with
        | .error e => .error e
        | .ok (values, s1) => .ok (.array values, s1)
      else if isSubstitution token (peek s) then extractSubstitution env fuel s
      else .error (.unknownConfigValue token)
termination_by structural fuel => fuel

/-- Embedding of `extractConfigArray` entry (`parser.go` lines 320-330):
require `[`, consume it; a directly following `]` yields the empty array
(consuming it); otherwise the array loop runs with the rune of the first
element token. -/
def extractConfigArray (env : Env) : Nat → ScanState → Except ParseErr (List ConfigValue × ScanState)
  | 0, _ => .error .outOfFuel
  | fuel+1, s =>
    if tokenText s != "[" then
      .error (.invalidConfigArray "not an array start token")
    else
      let s1 := scan s
      if tokenText s1 == "]" then .ok ([], scan s1)
      else arrayLoop env fuel [] false (curKind s1) s1
termination_by structural fuel => fuel

/-- Embedding of the token loop of `extractConfigArray` (`parser.go` lines
331-350): while `Peek` is not EOF — extract one value, append it, skip one
comma (refreshing the current rune), and stop at `]`, consuming it.
Falling out of the loop before `]` is the parenthesis error.  As in Go,
the current rune is refreshed only when a comma is skipped. -/
def arrayLoop (env : Env) :
    Nat → List ConfigValue → Bool → Option TokKind → ScanState →
    Except ParseErr (List ConfigValue × ScanState)
  | 0, _, _, _, _ => .error .outOfFuel
  | fuel+1, values, parenthesisBalanced, currentRune, s =>
    match peek s with
    | none =>
      if parenthesisBalanced then .ok (values, s)
      else .error (.invalidConfigArray "parenthesis do not match")
    | some _ =>
      match extractConfigValue env fuel currentRune s with
      | .error e => .error e
      | .ok (configValue, s1) =>
        let values1 := values ++ [configValue]
        let next : Option TokKind × ScanState :=
          if tokenText s1 == "," then (curKind (scan s1), scan s1) else (currentRune, s1)
        if !parenthesisBalanced && tokenText next.2 == "]" then .ok (values1, scan next.2)
        else arrayLoop env fuel values1 parenthesisBalanced next.1 next.2
termination_by structural fuel => fuel

/-- Embedding of `extractSubstitution` (`parser.go` lines 396-445): skip
`$` and `{`, read an optional `?`, reject an empty path and a leading
period, then (if `Peek` is not already EOF) run the path loop. -/
def extractSubstitution (env : Env) : Nat → ScanState → Except ParseErr (ConfigValue × ScanState)
  | 0, _ => .error .outOfFuel
  | fuel+1, s =>
    let s1 := scan s
    let s2 := scan s1
    let stepOpt : Bool × ScanState :=
      if tokenText s2 == "?" then (true, scan s2) else (false, s2)
    let firstToken := tokenText stepOpt.2
    if firstToken == "\x7d" then .error (.invalidSubstitution "path expression cannot be empty")
    else if firstToken == "." then .error .leadingPeriod
    else
      match peek stepOpt.2 with
      | none => .error (.invalidSubstitution "missing closing parenthesis")
      | some _ => substitutionLoop env fuel "" "" stepOpt.1 stepOpt.2

/-- Embedding of the path loop of `extractSubstitution` (`parser.go` lines
415-438): append the current token's text to the path, scan, and then
reject two adjacent periods, stop at `}` (rejecting a trailing period and
consuming the brace), and reject forbidden-character tokens.  The Go loop
condition is evaluated only on entry (its post-statement discards the
`Peek`), so once entered the loop leaves only by `break` or error; at end
of input it rescans EOF forever — the one spot where the Go code can
diverge, surfaced here as fuel exhaustion. -/
def substitutionLoop (env : Env) :
    Nat → String → String → Bool → ScanState → Except ParseErr (ConfigValue × ScanState)
  | 0, _, _, _, _ => .error .outOfFuel
  | fuel+1, pathAcc, previousToken, isOptional, s =>
    let pathAcc1 := pathAcc ++ tokenText s
    let s1 := scan s
    let text := tokenText s1
    if previousToken == "." && text == "." then .error .adjacentPeriods
    else if text == "\x7d" then
      if previousToken == "." then .error .trailingPeriod
      else .ok (.substitution pathAcc1 isOptional, scan s1)
    else if forbiddenCharacters text then .error (.invalidKey text)
    else substitutionLoop env fuel pathAcc1 text isOptional s1
termination_by structural fuel => fuel

end

/-- Embedding of `Parser.parse` / `ParseString` (`parser.go` lines 45-48
and 58-80) on the token list of a document: scan the first token; an
array-rooted document is extracted and returned without substitution
resolution; otherwise the root object is extracted, a non-empty trailing
token is the invalid-token error, and the substitution-resolution pass
runs before the root is returned. -/
def parse (env : Env) (fuel : Nat) (tokens : List Token) : Except ParseErr ConfigValue :=
  let s := scan ⟨none, tokens⟩
  if tokenText s == "[" then
    match extractConfigArray env fuel s with
    | .error e => .error e
    | .ok (configArray, _) => .ok (.array configArray)
  else
    match extractConfigObject env fuel s with
    | .error e => .error e
    | .ok (configObject, s1) =>
      if tokenText s1 != "" then
        .error (.invalidConfigObject ("invalid token " ++ tokenText s1))
      else
        match resolveSubstitutions configObject with
        | .error e => .error e
        | .ok resolved => .ok (.object resolved)

/-- Identifier token followed by whitespace. -/
def idT (t : String) : Token := ⟨.ident, t, false⟩

/-- Identifier token with the next token adjacent. -/
def idA (t : String) : Token := ⟨.ident, t, true⟩

/-- Character token followed by whitespace. -/
def chT (t : String) : Token := ⟨.other, t, false⟩

/-- Character token with the next token adjacent. -/
def chA (t : String) : Token := ⟨.other, t, true⟩

/-- Integer token followed by whitespace. -/
def intT (t : String) : Token := ⟨.int, t, false⟩

/-- Integer token with the next token adjacent. -/
def intA (t : String) : Token := ⟨.int, t, true⟩

/-- Quoted-string token followed by whitespace. -/
def strT (t : String) : Token := ⟨.str, t, false⟩

/-- Quoted-string token with the next token adjacent. -/
def strA (t : String) : Token := ⟨.str, t, true⟩

/-- Environment of an empty filesystem: every resource is missing. -/
def envNone : Env := fun _ => none

/-- Token list of the document `a.b = 1, c = 2`: a dotted-key assignment
followed by a sibling key in the same (root) enclosing object. -/
def docDottedSibling : List Token :=
  [idA "a", chA ".", idT "b", chT "=", intA "1", chT ",", idT "c", chT "=", intT "2"]

/-- Token list of the document `a.b.c = 1`. -/
def docDottedKey : List Token :=
  [idA "a", chA ".", idA "b", chA ".", idT "c", chT "=", intT "1"]

/-- Token list of the document `a { b { c = 1 } }`. -/
def docNestedBraces : List Token :=
  [idT "a", chT "\x7b", idT "b", chT "\x7b", idT "c", chT "=", intT "1", chT "\x7d", chT "\x7d"]

/-- Token list of the document `a = ${b}, b = ${c}, c = 1`: a chain of
substitutions. -/
def docSubstitutionChain : List Token :=
  [idT "a", chT "=", chA "$", chA "\x7b", idA "b", chA "\x7d", chT ",",
   idT "b", chT "=", chA "$", chA "\x7b", idA "c", chA "\x7d", chT ",",
   idT "c", chT "=", intT "1"]

/-- Token list of the document `{b = ${missing}}`: a required substitution
whose path is not in the document. -/
def docRequiredMissing : List Token :=
  [chA "\x7b", idT "b", chT "=", chA "$", chA "\x7b", idA "missing", chA "\x7d", chT "\x7d"]

/-- Token list of the document `{b = ${?missing}}`: an optional
substitution whose path is not in the document. -/
def docOptionalMissing : List Token :=
  [chA "\x7b", idT "b", chT "=", chA "$", chA "\x7b", chA "?", idA "missing", chA "\x7d", chT "\x7d"]

/-- Token list of the document `{a = 1, b = ${a}}`: a substitution whose
path is found. -/
def docSubstitutionFound : List Token :=
  [chA "\x7b", idT "a", chT "=", intA "1", chT ",", idT "b", chT "=",
   chA "$", chA "\x7b", idA "a", chA "\x7d", chT "\x7d"]

/-- Token list of the document `{a: 1, a: 2}`: duplicate key with scalar
values. -/
def docDuplicateScalar : List Token :=
  [chA "\x7b", idA "a", chT ":", intA "1", chT ",", idA "a", chT ":", intA "2", chT "\x7d"]

/-- Token list of the document `{a: {x:1}, a: {y:2}}`: duplicate key with
object values. -/
def docDuplicateObject : List Token :=
  [chA "\x7b", idA "a", chT ":", chA "\x7b", idA "x", chA ":", intA "1", chA "\x7d", chT ",",
   idA "a", chT ":", chA "\x7b", idA "y", chA ":", intA "2", chA "\x7d", chT "\x7d"]

/-- Token list of the document `{a += 1, a += 2}`. -/
def docPlusEqualsTwice : List Token :=
  [chA "\x7b", idT "a", chA "+", chT "=", intA "1", chT ",",
   idT "a", chA "+", chT "=", intA "2", chT "\x7d"]

/-- Token list of the document `{a = [1], a += 2}`. -/
def docArrayThenPlusEquals : List Token :=
  [chA "\x7b", idT "a", chT "=", chA "[", intA "1", chA "]", chT ",",
   idT "a", chA "+", chT "=", intA "2", chT "\x7d"]

/-- Token list of the document `{a = 1, a += 2}`: `+=` applied to a key
holding a non-array value. -/
def docPlusEqualsOnScalar : List Token :=
  [chA "\x7b", idT "a", chT "=", intA "1", chT ",",
   idT "a", chA "+", chT "=", intA "2", chT "\x7d"]

/-- Token list of the document `a = "x\"y"`: the value is one
quoted-string token whose text `"x\"y"` contains an interior (escaped)
quote character. -/
def docQuotedInteriorQuote : List Token :=
  [idT "a", chT "=", strT "\"x\\\"y\""]

/-- Token list of the document `"a$b" = 1`: the key is one quoted-string
token whose text contains the forbidden characters `"` and `$` without
being equal to any single forbidden character. -/
def docQuotedForbiddenKey : List Token :=
  [strT "\"a$b\"", chT "=", intT "1"]

/-- Token list of the document `include "missing.conf"`. -/
def docIncludeMissing : List Token :=
  [idT "include", strT "\"missing.conf\""]

/-- Token list of the document `include "missing.conf"` followed by
`a = 1` on the next line. -/
def docIncludeMissingThenKey : List Token :=
  [idT "include", strT "\"missing.conf\"", idT "a", chT "=", intT "1"]

/-- Token list of the document `include required("missing.conf")`. -/
def docIncludeRequiredMissing : List Token :=
  [idT "include", idA "required", chA "(", strA "\"missing.conf\"", chT ")"]

/-- Surrounding-quote stripping, stated from the spec side of claim C7
("the token text with only the surrounding quote characters stripped"),
for comparison against what `extractConfigValue` actually computes. -/
def stripSurroundingQuotes (t : String) : String :=
  String.mk (t.toList.drop 1).dropLast

/-- Claim C1: parsing the dotted form `a.b.c = 1` and the nested form
`a { b { c = 1 } }` yield identical trees, but the recursive extraction a
dotted key triggers DOES consume sibling keys that follow in the same
enclosing object: `a.b = 1, c = 2` parses to `{a: {b: 1, c: 2}}`, the
sibling `c` ending up inside the nested object — the nested
`extractConfigObject` call for a dotted key starts with
`parenthesisBalanced = true` and only stops at end of input or at a `}` of
the enclosing braces, so it absorbs the following siblings, contradicting
the claim's second half. -/
theorem dotted_key_expansion_consumes_following_sibling :
    parse envNone 50 docDottedKey
        = .ok (.object [("a", .object [("b", .object [("c", .int 1)])])]) ∧
    parse envNone 50 docNestedBraces
        = .ok (.object [("a", .object [("b", .object [("c", .int 1)])])]) ∧
    parse envNone 50 docDottedSibling
        = .ok (.object [("a", .object [("b", .int 1), ("c", .int 2)])]) :=
  ⟨rfl, rfl, rfl⟩

/-- Claim C2: the substitution-resolution pass is a single sweep in
iteration order, and a substitution replaced by a value that is itself a
not-yet-resolved Substitution keeps that placeholder: parsing
`a = ${b}, b = ${c}, c = 1` succeeds with `a` still holding the REQUIRED
Substitution `${c}` in the returned tree, contradicting the claim's
invariant that only not-found optional substitutions may remain. -/
theorem substitution_chain_leaves_required_placeholder :
    parse envNone 50 docSubstitutionChain
        = .ok (.object [("a", .substitution "c" false), ("b", .int 1), ("c", .int 1)]) :=
  rfl

/-- Claim C3: during resolution of an object-rooted document, a
Substitution whose path is found is replaced in its parent container by
the found value; a not-found optional one is left as-is without failing;
a not-found required one fails the whole parse with the
unresolved-substitution error.  Stated generally for `processSubstitution`
on any Substitution node, and concretely for whole parses of
`{b = ${missing}}`, `{b = ${?missing}}`, and `{a = 1, b = ${a}}`. -/
theorem substitution_resolution_found_optional_required :
    (∀ (root : Items) (path : List Seg) (p : String) (opt : Bool),
      processSubstitution (.substitution p opt) path root =
        match find root p with
        | some foundValue => .ok (setAt root path foundValue)
        | none => if opt then .ok root else .error (.unresolvedSubstitution p)) ∧
    parse envNone 50 docRequiredMissing = .error (.unresolvedSubstitution "missing") ∧
    parse envNone 50 docOptionalMissing
        = .ok (.object [("b", .substitution "missing" true)]) ∧
    parse envNone 50 docSubstitutionFound
        = .ok (.object [("a", .int 1), ("b", .int 1)]) :=
  ⟨fun _ _ _ _ => rfl, rfl, rfl, rfl⟩

/-- Claim C4: a later duplicate key with a non-object value overwrites
(`{a: 1, a: 2}` gives `a = 2`); duplicate object values deep-merge with
the incoming side winning on leaf conflicts (`{a: {x:1}, a: {y:2}}` gives
`a = {x:1, y:2}`). -/
theorem duplicate_key_overwrite_and_deep_merge :
    parse envNone 50 docDuplicateScalar = .ok (.object [("a", .int 2)]) ∧
    parse envNone 50 docDuplicateObject
        = .ok (.object [("a", .object [("x", .int 1), ("y", .int 2)])]) :=
  ⟨rfl, rfl⟩

/-- Claim C5: `+=` creates a fresh one-element array when the key is
absent and appends at the end when the key holds an array:
`{a += 1, a += 2}` and `{a = [1], a += 2}` both give `a = [1, 2]`. -/
theorem plus_equals_accumulates_array :
    parse envNone 50 docPlusEqualsTwice
        = .ok (.object [("a", .array [.int 1, .int 2])]) ∧
    parse envNone 50 docArrayThenPlusEquals
        = .ok (.object [("a", .array [.int 1, .int 2])]) :=
  ⟨rfl, rfl⟩

/-- Claim C6: `+=` on a key whose existing value is not an array fails
with the not-an-array type error — generally for `parsePlusEqualsValue`
at any state and fuel, and concretely for the whole parse of
`{a = 1, a += 2}`, which returns the error and no partial result. -/
theorem plus_equals_non_array_type_error :
    (∀ (env : Env) (fuel : Nat) (items : Items) (key : String)
        (currentRune : Option TokKind) (s : ScanState) (v : ConfigValue),
      lookupKey items key = some v → (∀ vs, v ≠ ConfigValue.array vs) →
      parsePlusEqualsValue env (fuel+1) items key currentRune s
        = .error (.plusEqualsTypeError key)) ∧
    parse envNone 50 docPlusEqualsOnScalar = .error (.plusEqualsTypeError "a") := by
  refine ⟨?_, rfl⟩
  intro env fuel items key currentRune s v h1 h2
  cases v with
  | array vs => exact absurd rfl (h2 vs)
  | object items2 => simp only [parsePlusEqualsValue, h1]
  | str value => simp only [parsePlusEqualsValue, h1]
  | int value => simp only [parsePlusEqualsValue, h1]
  | float raw => simp only [parsePlusEqualsValue, h1]
  | boolean b => simp only [parsePlusEqualsValue, h1]
  | null => simp only [parsePlusEqualsValue, h1]
  | substitution p opt => simp only [parsePlusEqualsValue, h1]

/-- Witness for `plus_equals_non_array_type_error` at a concrete input:
the key `a` holds the non-array scalar `1`. -/
theorem plus_equals_non_array_type_error_witness :
    lookupKey [("a", ConfigValue.int 1)] "a" = some (ConfigValue.int 1) ∧
    parsePlusEqualsValue envNone 5 [("a", ConfigValue.int 1)] "a" none ⟨none, []⟩
      = .error (.plusEqualsTypeError "a") :=
  ⟨rfl,
   plus_equals_non_array_type_error.1 envNone 4 [("a", ConfigValue.int 1)] "a" none
     ⟨none, []⟩ (ConfigValue.int 1) rfl (fun _ h => ConfigValue.noConfusion h)⟩

/-- Claim C7 counterexample: on the quoted-string token `"x\"y"` (whose
interior contains a quote character), value extraction does NOT return the
token text with only the surrounding quotes stripped: `parser.go` line 372
removes every `"` with `strings.ReplaceAll`, so the interior quote is
removed as well. -/
theorem quoted_string_interior_quote_not_preserved :
    parse envNone 50 docQuotedInteriorQuote
        = .ok (.object [("a", .str (removeQuoteChars "\"x\\\"y\""))]) ∧
    removeQuoteChars "\"x\\\"y\"" ≠ stripSurroundingQuotes "\"x\\\"y\"" :=
  ⟨rfl, by decide⟩

/-- Claim C7 as amended: a quoted-string token becomes a String scalar
equal to the token text with EVERY double-quote character removed
(surrounding and interior alike); all other characters are preserved in
order. -/
theorem quoted_string_removes_every_quote_character :
    ∀ (env : Env) (fuel : Nat) (s : ScanState),
      extractConfigValue env (fuel+1) (some TokKind.str) s
        = .ok (.str (String.mk ((tokenText s).toList.filter (fun c => c != '"'))), scan s) :=
  fun _ _ _ => rfl

/-- Claim C8 counterexample: a quoted key token CONTAINING forbidden
characters is not rejected — the check at `parser.go` line 150 looks the
whole token text up in the `forbiddenCharacters` map, so only a token that
IS a forbidden character fails: `"a$b" = 1` parses successfully, keeping
the quotes and the `$` in the key. -/
theorem quoted_key_containing_forbidden_characters_accepted :
    parse envNone 50 docQuotedForbiddenKey
        = .ok (.object [("\"a$b\"", .int 1)]) :=
  rfl

/-- Claim C8 as amended: a key token at the key position of the object
loop that is itself one of the forbidden characters fails the parse with
the invalid-key error, wherever the object loop runs, and so does a token
after the first of a substitution path; but the check is token equality,
not containment, so a quoted key token merely containing forbidden
characters passes (see the counterexample). -/
theorem forbidden_character_token_causes_key_error :
    (∀ (env : Env) (fuel : Nat) (root : Items) (parenthesisBalanced : Bool)
        (tok t : Token) (r : List Token),
      forbiddenCharacters tok.text = true → tok.text ≠ "include" →
      objectLoop env (fuel+1) root parenthesisBalanced ⟨some tok, t :: r⟩
        = .error (.invalidKey tok.text)) ∧
    (∀ (env : Env) (fuel : Nat) (pathAcc previousToken : String) (isOptional : Bool)
        (cur : Option Token) (t : Token) (r : List Token),
      forbiddenCharacters t.text = true → t.text ≠ "\x7d" →
      substitutionLoop env (fuel+1) pathAcc previousToken isOptional ⟨cur, t :: r⟩
        = .error (.invalidKey t.text)) := by
  constructor
  · intro env fuel root parenthesisBalanced tok t r hforb hninc
    have h1 : (tok.text == "include") = false := beq_eq_false_iff_ne.mpr hninc
    simp [objectLoop, peek, tokenText, h1, hforb]
  · intro env fuel pathAcc previousToken isOptional cur t r hforb hnbrace
    have hdot : t.text ≠ "." := by
      intro h
      rw [h] at hforb
      exact absurd hforb (by decide)
    have h1 : (t.text == ".") = false := beq_eq_false_iff_ne.mpr hdot
    have h2 : (t.text == "\x7d") = false := beq_eq_false_iff_ne.mpr hnbrace
    simp [substitutionLoop, scan, tokenText, h1, h2, hforb]

/-- Witness for `forbidden_character_token_causes_key_error` at concrete
inputs: the forbidden key token `=` at the key position, and the forbidden
path token `$` inside a substitution path. -/
theorem forbidden_character_token_causes_key_error_witness :
    forbiddenCharacters "=" = true ∧ ("=" : String) ≠ "include" ∧
    objectLoop envNone 5 [] true ⟨some (chT "="), [intT "1"]⟩
      = .error (.invalidKey "=") ∧
    forbiddenCharacters "$" = true ∧ ("$" : String) ≠ "\x7d" ∧
    substitutionLoop envNone 5 "a" "a" false ⟨some (idA "a"), [chA "$", chT "\x7d"]⟩
      = .error (.invalidKey "$") :=
  ⟨rfl, by decide, forbidden_character_token_causes_key_error.1 envNone 4 [] true
     (chT "=") (intT "1") [] rfl (by decide),
   rfl, by decide, forbidden_character_token_causes_key_error.2 envNone 4 "a" "a" false
     (some (idA "a")) (chA "$") [chT "\x7d"] rfl (by decide)⟩

/-- Claim C9: an include directive whose target resource does not exist
resolves to the empty object when not wrapped in `required(...)` (the
parse succeeds and the include contributes no keys), and fails the
enclosing parse when wrapped in `required(...)` — generally for
`parseIncludedResource` under any environment lacking the path, and
concretely for whole parses against the empty filesystem. -/
theorem include_missing_resource_empty_or_required_fails :
    (∀ (env : Env) (fuel : Nat) (s : ScanState) (inc : IncludeToken) (s1 : ScanState),
      validateIncludeValue s = .ok (inc, s1) → env inc.path = none →
      parseIncludedResource env (fuel+1) s
        = if !inc.required then .ok ([], s1)
          else .error (.couldNotParseResource inc.path)) ∧
    parse envNone 50 docIncludeMissing = .ok (.object []) ∧
    parse envNone 50 docIncludeMissingThenKey = .ok (.object [("a", .int 1)]) ∧
    parse envNone 50 docIncludeRequiredMissing
        = .error (.couldNotParseResource "missing.conf") := by
  refine ⟨?_, rfl, rfl, rfl⟩
  intro env fuel s inc s1 hval henv
  simp only [parseIncludedResource, hval, henv]

/-- Witness for `include_missing_resource_empty_or_required_fails` at a
concrete input: the scanner sits on the quoted path `"missing.conf"` and
the environment has no resources. -/
theorem include_missing_resource_empty_or_required_fails_witness :
    validateIncludeValue ⟨some (strT "\"missing.conf\""), []⟩
      = .ok (⟨"missing.conf", false⟩, ⟨some (strT "\"missing.conf\""), []⟩) ∧
    envNone "missing.conf" = none ∧
    parseIncludedResource envNone 5 ⟨some (strT "\"missing.conf\""), []⟩
      = .ok ([], ⟨some (strT "\"missing.conf\""), []⟩) :=
  ⟨rfl, rfl,
   include_missing_resource_empty_or_required_fails.1 envNone 4
     ⟨some (strT "\"missing.conf\""), []⟩ ⟨"missing.conf", false⟩
     ⟨some (strT "\"missing.conf\""), []⟩ rfl rfl⟩

/-- Claim C10: parsing the empty document succeeds with an empty root
Object for every environment and every sufficient fuel: the extraction
loop never runs (`Peek` is already end-of-input), the balanced root
returns the empty item map, and resolution of an empty object is the
identity. -/
theorem parse_empty_document_yields_empty_object :
    ∀ (env : Env) (fuel : Nat), parse env (fuel+2) [] = .ok (.object []) :=
  fun _ _ => rfl

end Hocon
